import Mathlib

/-!
Verification of the wowExperement repository: a shallow embedding, in Lean 4,
of the data model and the operations described by the specification, together
with theorems settling each claim about them.  Every definition in the first
half of the file is translated from a concrete function of the Python source
tree; the theorems in the second half state and settle the claims.
-/

set_option autoImplicit false

namespace Wow

/-! ## Skill library (src/agents/skill_library.py)

The skill library stores snippets keyed by a task description.  A Python dict
with string keys preserves insertion order and updates a key in place, so it is
embedded as an association list with in-place update. -/

/-- One library: insertion-ordered pairs of (task description, code snippet). -/
abbrev SkillLib := List (String × String)

/-- Embedding of SkillLibrary.add_skill: dict assignment, which updates an
existing key in place or appends a new one at the end. -/
def add_skill : SkillLib → String → String → SkillLib
  | [], d, c => [(d, c)]
  | (k, v) :: rest, d, c =>
    if k = d then (k, c) :: rest else (k, v) :: add_skill rest d c

/-- Python substring membership test (the expression a in b on strings),
over character lists. -/
def containsSub (hay needle : List Char) : Bool :=
  hay.tails.any (fun t => needle.isPrefixOf t)

/-- Python str.split with no separator: split on runs of whitespace,
discarding empty pieces.  Auxiliary with an accumulator of the current word,
kept in reverse. -/
def splitWsAux : List Char → List Char → List (List Char)
  | [], acc => if acc.isEmpty then [] else [acc.reverse]
  | c :: cs, acc =>
    if c.isWhitespace then
      if acc.isEmpty then splitWsAux cs [] else acc.reverse :: splitWsAux cs []
    else
      splitWsAux cs (c :: acc)

/-- Python str.split with no separator, over character lists. -/
def splitWs (s : List Char) : List (List Char) :=
  splitWsAux s []

/-- The match test of SkillLibrary.find_skill for one stored description:
all of the first three whitespace-delimited tokens of the stored description
occur as substrings of the queried task description. -/
def matchSkill (desc query : String) : Bool :=
  ((splitWs desc.data).take 3).all (fun kw => containsSub query.data kw)

/-- Embedding of SkillLibrary.find_skill: scan the stored skills in order and
return the code of the first whose description matches; None when none does. -/
def find_skill : SkillLib → String → Option String
  | [], _ => none
  | (k, v) :: rest, q =>
    if matchSkill k q then some v else find_skill rest q

/-! ## Rule-based fallback planner (src/planner.py)

generate_plan consumes a state mapping with keys health, enemies and npcs.
Health is an integer (falsy exactly when 0); enemies and npcs are lists of
screen coordinates.  random.choice picks an arbitrary valid index into the
enemy list; the index is passed explicitly as the parameter pick, reduced
modulo the length so that the function is total. -/

/-- State consumed by generate_plan. -/
structure PlanState where
  health : Nat
  enemies : List (Int × Int)
  npcs : List (Int × Int)
deriving Repr, DecidableEq

/-- One step of a plan produced by generate_plan. -/
inductive PlanStep where
  | revive : PlanStep
  | move_to (target : Int × Int) : PlanStep
  | attack (target : Int × Int) : PlanStep
  | explore : PlanStep
deriving Repr, DecidableEq

/-- Embedding of generate_plan.  The parameter pick models the index chosen
by random.choice on the non-empty enemy list. -/
def generate_plan (pick : Nat) (state : PlanState) : List PlanStep :=
  if state.health = 0 then
    [PlanStep.revive]
  else if state.enemies ≠ [] then
    let target := state.enemies.getD (pick % state.enemies.length) (0, 0)
    [PlanStep.move_to target, PlanStep.attack target]
  else if state.npcs ≠ [] then
    [PlanStep.move_to (state.npcs.getD 0 (0, 0))]
  else
    [PlanStep.explore]

/-! ## LLM-backed action planner (src/agents/action_planner.py)

plan_action runs: prepare context, generate prompt, invoke the LLM adapter,
parse, validate, log; any exception anywhere in that pipeline is caught and
turned into an error record, so the embedding threads an Except value through
the pipeline and the public function is total.  The LLM layer together with
response parsing (_parse_response) is a single oracle from the generated
prompt to either a parsed response or a raised error, which covers every
behavior of the adapter, the network and the JSON parsing.  A parsed JSON
object is restricted to the four keys the planner ever inspects; an Option
field is none when the key is absent (the error record of the source carries
an explicit None under the action key, which this embedding identifies with
an absent key, as both are falsy and unread). -/

/-- Value under the target key of a parsed response. -/
structure TargetVal where
  ttype : Option String
  position : Option (Int × Int)
deriving Repr, DecidableEq

/-- A parsed LLM response (also the shape plan_action returns). -/
structure ParsedResp where
  action : Option String
  target : Option TargetVal
  reason : Option String
  status : Option String
deriving Repr, DecidableEq

/-- Game-state mapping consumed by plan_action. -/
structure GameStateIn where
  position : Option (Int × Int)
  health : Option Int
  enemies : List (Int × Int)
  npcs : List (Int × Int)
deriving Repr, DecidableEq

/-- Context assembled by ActionPlanner._prepare_context. -/
structure GameCtx where
  timestamp : Nat
  game_state : GameStateIn
  history : List String
  inventory : List String
  abilities : List String
  last_action : Option ParsedResp
deriving Repr, DecidableEq

/-- One entry of ActionPlanner.action_history, as appended by _log_action. -/
structure HistEntry where
  timestamp : Nat
  action : ParsedResp
  context : GameCtx
deriving Repr, DecidableEq

/-- Mutable state of an ActionPlanner instance. -/
structure PlannerState where
  last_action : Option ParsedResp
  action_history : List HistEntry
deriving Repr, DecidableEq

/-- A generated prompt: system plus user message. -/
structure Prompt where
  system_message : String
  user_message : String
deriving Repr, DecidableEq

/-- Embedding of ActionPlanner._prepare_context; the or-else defaults turn
absent optional arguments into empty lists. -/
def prepare_context (p : PlannerState) (gs : GameStateIn)
    (history inventory abilities : Option (List String)) (now : Nat) : GameCtx :=
  { timestamp := now
    game_state := gs
    history := history.getD []
    inventory := inventory.getD []
    abilities := abilities.getD []
    last_action := p.last_action }

/-- Embedding of ActionPlanner._get_system_prompt; the fixed instruction text
is abbreviated, its content is never inspected. -/
def get_system_prompt : String :=
  "Ты профессиональный AI-ассистент для World of Warcraft."

/-- Embedding of ActionPlanner._get_user_message: a summary of position,
health, enemy and NPC counts, inventory size and ability names. -/
def get_user_message (ctx : GameCtx) : String :=
  "Позиция: " ++ toString ctx.game_state.position ++
    "; Здоровье: " ++ toString (ctx.game_state.health.getD 100) ++
    "; Враги: " ++ toString ctx.game_state.enemies.length ++
    "; NPC: " ++ toString ctx.game_state.npcs.length ++
    "; Инвентарь: " ++ toString ctx.inventory.length ++
    "; Навыки: " ++ String.intercalate ", " ctx.abilities ++
    "; Последнее действие: " ++ toString (ctx.last_action.map ParsedResp.action)

/-- Embedding of ActionPlanner._generate_prompt. -/
def generate_prompt (ctx : GameCtx) : Prompt :=
  { system_message := get_system_prompt, user_message := get_user_message ctx }

/-- The action vocabulary ActionPlanner._validate_action actually checks. -/
def allowed_planner_actions : List String :=
  ["attack", "move", "interact", "loot"]

/-- Embedding of ActionPlanner._validate_action: all three required keys must
be present, and the action value must lie in allowed_planner_actions;
otherwise a ValueError is raised (an error value here). -/
def validate_action (a : ParsedResp) : Except String Unit :=
  match a.action, a.target, a.reason with
  | some act, some _, some _ =>
    if allowed_planner_actions.contains act then Except.ok ()
    else Except.error ("Недопустимое действие: " ++ act)
  | _, _, _ =>
    Except.error "Ответ не содержит все обязательные поля: action, target, reason"

/-- Embedding of ActionPlanner._log_action: record the action as last_action
and append an entry to the action history. -/
def log_action (p : PlannerState) (ctx : GameCtx) (a : ParsedResp) : PlannerState :=
  { last_action := some a
    action_history := p.action_history ++ [⟨ctx.timestamp, a, ctx⟩] }

/-- The record returned by the except-branch of plan_action. -/
def plan_error_record (msg : String) : ParsedResp :=
  { action := none
    target := none
    reason := some ("Ошибка планирования: " ++ msg)
    status := some "error" }

/-- Embedding of ActionPlanner.plan_action.  The first component of the
result is the returned record, the second the planner state afterwards. -/
def plan_action (p : PlannerState) (gs : GameStateIn)
    (history inventory abilities : Option (List String)) (now : Nat)
    (llm : Prompt → Except String ParsedResp) : ParsedResp × PlannerState :=
  let ctx := prepare_context p gs history inventory abilities now
  let prompt := generate_prompt ctx
  match llm prompt with
  | Except.error e => (plan_error_record e, p)
  | Except.ok result =>
    match validate_action result with
    | Except.error e => (plan_error_record e, p)
    | Except.ok _ => (result, log_action p ctx result)

/-! ## Game environment facades (src/wow_environment.py and
src/environment/wow_environment.py)

Both facades wrap the body of get_game_state in a try/except that converts
any exception into an error dictionary.  The embedding threads the body
through Except and applies the catch as an explicit match, so the public
function is total; the internal capture and detection calls are oracles that
may return any value or raise with any message, which covers every behavior
of the internals.  Frames are abstract identifiers. -/

/-- The dictionary returned by get_game_state of either facade; a field is
none when the corresponding key is absent. -/
structure GSRecord where
  status : String
  frame : Option Nat
  reason : Option String
  position : Option (Int × Int)
  health : Option Int
  enemies : Option (List (Int × Int))
  npcs : Option (List (Int × Int))
deriving Repr, DecidableEq

/-- The all-absent error dictionary with a given reason. -/
def gs_error_record (msg : String) : GSRecord :=
  { status := "error", frame := none, reason := some msg
    position := none, health := none, enemies := none, npcs := none }

/-- Internals of the root facade (src/wow_environment.py): _capture_frame
catches its own exceptions and yields None on failure, so it is an Option;
_find_objects and _get_player_position may raise. -/
structure RootFacadeInternals where
  capture_frame : Option Nat
  find_objects : Nat → Except String (List (Int × Int))
  player_position : Nat → Except String (Int × Int)

/-- Body of the root get_game_state before the exception seam: a None frame
short-circuits into an error dictionary, otherwise enemies are detected and
the player position computed, either of which may raise. -/
def root_get_game_state_body (i : RootFacadeInternals) : Except String GSRecord :=
  match i.capture_frame with
  | none => Except.ok (gs_error_record "Не удалось захватить кадр")
  | some f =>
    match i.find_objects f with
    | Except.error e => Except.error e
    | Except.ok es =>
      match i.player_position f with
      | Except.error e => Except.error e
      | Except.ok pos =>
        Except.ok { status := "success", frame := some f, reason := none
                    position := some pos, health := none
                    enemies := some es, npcs := some [] }

/-- Embedding of the root WowEnvironment.get_game_state including its
exception seam. -/
def root_get_game_state (i : RootFacadeInternals) : GSRecord :=
  match root_get_game_state_body i with
  | Except.ok r => r
  | Except.error e => gs_error_record e

/-- Internals of the environment-package facade
(src/environment/wow_environment.py): _get_screenshot re-raises its own
failures, _detect_health is numeric work over the screenshot, and the
position is read from the mouse; the enemy and NPC detectors of this variant
are stubs returning empty lists. -/
structure EnvFacadeInternals where
  get_screenshot : Except String Nat
  detect_health : Nat → Except String Int
  mouse_position : Except String (Int × Int)

/-- Body of the environment-package get_game_state before the exception
seam.  Its success dictionary carries no frame key at all. -/
def env_get_game_state_body (i : EnvFacadeInternals) : Except String GSRecord :=
  match i.get_screenshot with
  | Except.error e => Except.error e
  | Except.ok shot =>
    match i.detect_health shot with
    | Except.error e => Except.error e
    | Except.ok health =>
      match i.mouse_position with
      | Except.error e => Except.error e
      | Except.ok pos =>
        Except.ok { status := "success", frame := none, reason := none
                    position := some pos, health := some health
                    enemies := some [], npcs := some [] }

/-- Embedding of the environment-package WowEnvironment.get_game_state
including its exception seam. -/
def env_get_game_state (i : EnvFacadeInternals) : GSRecord :=
  match env_get_game_state_body i with
  | Except.ok r => r
  | Except.error e => gs_error_record e

/-! ## Movement controllers (src/agents/movement_controller.py and
src/controllers/movement_controller.py)

The agents variant dispatches on the action type to move/attack/interact,
logs a warning for any other type, and catches every exception of its
handlers; the controllers variant unwraps an optional nested action, looks
the type up among its four registered handlers, and both for a missing
handler and for a handler failure logs and re-raises.  Handlers are oracles
so every behavior of the input layer is covered. -/

/-- The action dictionary consumed by execute. -/
structure ActionDict where
  action : Option String
  target : Option TargetVal
deriving Repr, DecidableEq

/-- Handler oracles of the agents-variant MovementController. -/
structure AgentsHandlers where
  move_to : (Int × Int) → Except String Unit
  attack : (Int × Int) → Option String → Except String Unit
  interact : (Int × Int) → Except String Unit

/-- Body of the agents-variant execute before its catch-all: dispatch on the
action type; reading a missing target position raises a KeyError; an
unrecognized type only logs a warning and falls through. -/
def agents_execute_body (h : AgentsHandlers) (a : ActionDict) : Except String Unit :=
  let target := a.target.getD ⟨none, none⟩
  match a.action with
  | none => Except.ok ()
  | some t =>
    if t = "move" then
      match target.position with
      | some pos => h.move_to pos
      | none => Except.error "KeyError: position"
    else if t = "attack" then
      match target.position with
      | some pos => h.attack pos target.ttype
      | none => Except.error "KeyError: position"
    else if t = "interact" then
      match target.position with
      | some pos => h.interact pos
      | none => Except.error "KeyError: position"
    else Except.ok ()

/-- Embedding of the agents-variant MovementController.execute: the whole
body sits inside try/except, so every failure is logged and swallowed. -/
def agents_execute (h : AgentsHandlers) (a : ActionDict) : Except String Unit :=
  match agents_execute_body h a with
  | Except.ok _ => Except.ok ()
  | Except.error _ => Except.ok ()

/-- Handler oracles of the controllers-variant MovementController, keyed
explore, gather_resources, move, attack in its handler table. -/
structure CtrlHandlers where
  explore : ActionDict → Except String Unit
  gather_resources : ActionDict → Except String Unit
  move : ActionDict → Except String Unit
  attack : ActionDict → Except String Unit

/-- Input of the controllers-variant execute: either a flat action
dictionary or a wrapper holding the action dictionary under its action key. -/
inductive CtrlActionInput where
  | plain (a : ActionDict)
  | wrapped (a : ActionDict)
deriving Repr, DecidableEq

/-- Embedding of the controllers-variant MovementController.execute: the
except block logs and re-raises, so a missing type, a missing handler and a
handler failure all propagate to the caller as errors. -/
def ctrl_execute (h : CtrlHandlers) (inp : CtrlActionInput) : Except String Unit :=
  let a := match inp with
    | CtrlActionInput.plain a => a
    | CtrlActionInput.wrapped a => a
  match a.action with
  | none => Except.error "Действие не содержит типа"
  | some t =>
    if t = "" then Except.error "Действие не содержит типа"
    else if t = "explore" then h.explore a
    else if t = "gather_resources" then h.gather_resources a
    else if t = "move" then h.move a
    else if t = "attack" then h.attack a
    else Except.error ("Нет обработчика для действия: " ++ t)

/-! ## IAM token manager (src/tests/YandexIAMTokenManager.py)

get_iam_token serves a cached token while the Python truthiness guard holds
(token set and non-empty, expiry set, now before expiry) and otherwise runs
one token exchange against the OAuth endpoint.  The exchange response is an
oracle; time is abstract (seconds); the string parse of the server expiry
timestamp is abstracted into an already-parsed instant. -/

/-- Cached-token state of a YandexIAMTokenManager. -/
structure TokenState where
  iam_token : Option String
  expires_at : Option Nat
deriving Repr, DecidableEq

/-- One exchange response: ok is false when raise_for_status throws;
iamToken is none when the key is missing from the body; expiresAt is the
parsed server expiry when the server sends one. -/
structure ExchangeResponse where
  ok : Bool
  iamToken : Option String
  expiresAt : Option Nat
deriving Repr, DecidableEq

/-- Fallback token lifetime used when the server omits expiresAt: 11 hours
55 minutes, in seconds. -/
def fallback_lifetime : Nat := 42900

/-- The exchange path of get_iam_token: an HTTP error or a missing iamToken
key is re-raised with the state unchanged; otherwise the token is cached
together with the server expiry or the fallback expiry.  The last component
counts network exchanges (always one here). -/
def token_exchange (st : TokenState) (now : Nat) (resp : ExchangeResponse) :
    Except String String × TokenState × Nat :=
  if resp.ok = false then (Except.error "HTTPError", st, 1)
  else
    match resp.iamToken with
    | none => (Except.error "KeyError: iamToken", st, 1)
    | some t =>
      (Except.ok t,
       { iam_token := some t
         expires_at := some (match resp.expiresAt with
           | some e => e
           | none => now + fallback_lifetime) },
       1)

/-- Embedding of YandexIAMTokenManager.get_iam_token. -/
def get_iam_token (st : TokenState) (now : Nat) (resp : ExchangeResponse) :
    Except String String × TokenState × Nat :=
  match st.iam_token, st.expires_at with
  | some t, some e =>
    if t ≠ "" ∧ now < e then (Except.ok t, st, 0)
    else token_exchange st now resp
  | _, _ => token_exchange st now resp

/-! ## Broken planner wiring (src/agents/action_planner.py constructor,
src/agents/llm_provider.py, src/main.py)

The constructor of ActionPlanner resolves a from-import of the name
LLMProvider out of the module agents.llm_provider inside its body; the
namespace of that module is a closed list of top-level bindings, and the
lookup runs against that list.  The orchestrator additionally
calls the zero-parameter constructor with one positional argument, which in
Python is a TypeError raised before the body ever runs. -/

/-- Top-level names bound in the module agents.llm_provider: its imports
plus the only two classes it defines, BaseLLMProvider and
YandexGPTProvider. -/
def llm_provider_module_names : List String :=
  ["requests", "yaml", "Path", "Dict", "Any", "List", "Optional",
   "logging", "json", "ABC", "abstractmethod", "logger",
   "BaseLLMProvider", "YandexGPTProvider"]

/-- Python from-import: yields the requested name, or an ImportError when
the module namespace holds no such binding. -/
def lookupImport (names : List String) (n : String) : Except String String :=
  if names.contains n then Except.ok n
  else Except.error ("ImportError: cannot import name " ++ n)

/-- Embedding of ActionPlanner.__init__: the body starts with the
from-import of LLMProvider, and the except block logs and re-raises, so a
failed lookup escapes the constructor; the rest of the body is modeled as
succeeding, which only strengthens the failure result. -/
def action_planner_init : Except String Unit :=
  match lookupImport llm_provider_module_names "LLMProvider" with
  | Except.error e => Except.error e
  | Except.ok _ => Except.ok ()

/-- Number of positional parameters of ActionPlanner.__init__ besides self. -/
def action_planner_param_count : Nat := 0

/-- Constructing an ActionPlanner with a number of positional arguments:
wrong arity is a TypeError before the body runs, otherwise the body runs. -/
def call_action_planner (args : Nat) : Except String Unit :=
  if args ≠ action_planner_param_count then
    Except.error "TypeError: ActionPlanner takes no positional arguments"
  else action_planner_init

/-- Embedding of WoWBot._init_components up to the planner: the
YandexGPTProvider construction is an oracle; the planner is then constructed
with one positional argument (main.py passes self.llm_provider); the later
components and the loop are unreachable. -/
def wow_bot_init_components (provider : Except String Unit) : Except String Unit :=
  match provider with
  | Except.error e => Except.error e
  | Except.ok _ =>
    match call_action_planner 1 with
    | Except.error e => Except.error e
    | Except.ok _ => Except.ok ()

/-! ## Safe code executor (src/utils/safety_checker.py)

validate_code parses a snippet and walks the tree; any call whose extracted
function name is outside the allow-list raises a SecurityError which is
caught, and the function then returns the empty string instead of the code.
The snippet is embedded as its text together with its parse outcome (none
models a SyntaxError); the tree keeps exactly the shape the checker
observes: names, attribute access, calls, constants, and the sibling
sequencing of module bodies and argument lists. -/

/-- Abstract syntax of a parsed snippet as far as the checker observes it. -/
inductive PyAst where
  | name (id : String) : PyAst
  | attr (base : PyAst) (field : String) : PyAst
  | call (func : PyAst) (args : PyAst) : PyAst
  | const : PyAst
  | seqNil : PyAst
  | seqCons (head tail : PyAst) : PyAst
deriving Repr, DecidableEq

/-- The allow-list of SafeCodeExecutor.allowed_functions. -/
def allowed_functions : List String := ["move_to", "click", "cast_spell", "loot"]

/-- The allow-list as the specification words it, the union of the name
variants of both validator files; kept for comparison against the source. -/
def claimed_allowed_functions : List String :=
  ["move_to", "move", "click", "cast_spell", "cast", "loot", "interact"]

/-- Embedding of SafeCodeExecutor.get_func_name: a simple name yields its
id, an attribute access its attribute name, anything else the empty name. -/
def get_func_name : PyAst → String
  | PyAst.name id => id
  | PyAst.attr _ f => f
  | _ => ""

/-- Embedding of SafeCodeExecutor.check_node, as the predicate that no
SecurityError is raised anywhere in the walk: every call node must have its
extracted function name in the allow-list, and all children are walked. -/
def check_node : PyAst → Bool
  | PyAst.name _ => true
  | PyAst.attr base _ => check_node base
  | PyAst.call f args =>
    allowed_functions.contains (get_func_name f) && check_node f && check_node args
  | PyAst.const => true
  | PyAst.seqNil => true
  | PyAst.seqCons h tl => check_node h && check_node tl

/-- The multiset of call-target names occurring in a tree, used to state
what check_node enforces. -/
def call_names : PyAst → List String
  | PyAst.name _ => []
  | PyAst.attr base _ => call_names base
  | PyAst.call f args => get_func_name f :: (call_names f ++ call_names args)
  | PyAst.const => []
  | PyAst.seqNil => []
  | PyAst.seqCons h tl => call_names h ++ call_names tl

/-- Python str.strip with no argument: drop whitespace from both ends, over
character lists. -/
def pyStrip (s : List Char) : List Char :=
  ((s.dropWhile Char.isWhitespace).reverse.dropWhile Char.isWhitespace).reverse

/-- Embedding of SafeCodeExecutor.validate_code: blank code yields the empty
string, a SyntaxError yields the empty string, a SecurityError is caught and
yields the empty string, and otherwise the code itself is returned for
execution. -/
def validate_code (text : String) (parsed : Option PyAst) : String :=
  if pyStrip text.data = [] then ""
  else
    match parsed with
    | none => ""
    | some tree => if check_node tree then text else ""

/-! ## Health/mana string parser (src/utils/WoWGameStateParser.py)

parse_health_mana normalizes a raw value string.  Its slash branch computes
int(current / max_val * 100): a double-precision division, a
double-precision multiplication by 100, then truncation toward zero.  Both
roundings are modeled exactly: a positive double is a dyadic m * 2 ^ e with
m in the 53-bit mantissa range, and each operation rounds its exact rational
result to the nearest such dyadic, ties to even.  Strings are embedded as
character lists; int() accepts an optional sign and decimal digits with
surrounding whitespace (digit-group underscores and non-ASCII digits are not
modeled). -/

/-- Round num / den to the nearest natural, ties to even: the IEEE rounding
applied at the end of each floating-point operation. -/
def roundHalfEven (num den : Nat) : Nat :=
  let q := num / den
  let r := num % den
  if 2 * r < den then q
  else if den < 2 * r then q + 1
  else if q % 2 = 0 then q else q + 1

/-- Base-2 integer logarithm with explicit fuel, so that the kernel can
evaluate it; with fuel at least n it agrees with the mathematical floor of
log2 for n positive. -/
def log2fuel : Nat → Nat → Nat
  | 0, _ => 0
  | fuel + 1, n => if 2 ≤ n then log2fuel fuel (n / 2) + 1 else 0

/-- Base-2 integer logarithm (0 for inputs below 2). -/
def natLog2 (n : Nat) : Nat := log2fuel n n

/-- Whether 2 ^ c ≤ a / b, for an integer c and naturals a b, decided
within the integers. -/
def pow2LE (c : Int) (a b : Nat) : Bool :=
  if 0 ≤ c then b * 2 ^ c.toNat ≤ a else b ≤ a * 2 ^ (-c).toNat

/-- The binade of the positive rational a / b: the e such that
2 ^ e ≤ a / b < 2 ^ (e + 1), located from the integer base-2 logarithms of
numerator and denominator. -/
def binade (a b : Nat) : Int :=
  let c : Int := (natLog2 a : Int) - (natLog2 b : Int)
  if pow2LE c a b then c else c - 1

/-- A dyadic rational m * 2 ^ e: the exact value of a nonnegative double. -/
structure Dyadic where
  m : Nat
  e : Int
deriving Repr, DecidableEq

/-- IEEE double division a / b of nonnegative operands: scale the quotient
into the 53-bit mantissa range and round to nearest, ties to even. -/
def fdiv (a b : Nat) : Dyadic :=
  if a = 0 then ⟨0, 0⟩
  else
    let ebin := binade a b
    let s : Int := 52 - ebin
    let m :=
      if 0 ≤ s then roundHalfEven (a * 2 ^ s.toNat) b
      else roundHalfEven a (b * 2 ^ (-s).toNat)
    ⟨m, ebin - 52⟩

/-- IEEE double multiplication of a nonnegative double by the exact integer
100: renormalize the 100-fold mantissa back into 53 bits, rounding to
nearest, ties to even. -/
def fmul100 (d : Dyadic) : Dyadic :=
  let m100 := d.m * 100
  let len := natLog2 m100
  if len ≤ 52 then ⟨m100, d.e⟩
  else ⟨roundHalfEven m100 (2 ^ (len - 52)), d.e + (len - 52)⟩

/-- Truncation toward zero of a nonnegative dyadic: Python int() on a
nonnegative float. -/
def dtrunc (d : Dyadic) : Nat :=
  if 0 ≤ d.e then d.m * 2 ^ d.e.toNat else d.m / 2 ^ (-d.e).toNat

/-- Python int(a / b * 100) for naturals with b positive: two
double-precision operations, then truncation. -/
def pyPercent (a b : Nat) : Nat :=
  dtrunc (fmul100 (fdiv a b))

/-- Signed variant for a negative current value; double rounding and int()
truncation both commute with negation. -/
def pyPercentInt (a : Int) (b : Nat) : Int :=
  if 0 ≤ a then (pyPercent a.toNat b : Int) else -(pyPercent a.natAbs b : Int)

/-- Decimal digit characters to a natural number, most significant first. -/
def digitsToNat : List Char → Nat → Nat
  | [], acc => acc
  | c :: cs, acc => digitsToNat cs (acc * 10 + (c.toNat - 48))

/-- Embedding of Python int() on a string; none models the ValueError. -/
def pyInt (s : List Char) : Option Int :=
  match pyStrip s with
  | [] => none
  | c :: cs =>
    if c = '-' then
      if cs ≠ [] ∧ cs.all Char.isDigit then some (-(digitsToNat cs 0 : Int))
      else none
    else if c = '+' then
      if cs ≠ [] ∧ cs.all Char.isDigit then some ((digitsToNat cs 0 : Int))
      else none
    else
      if (c :: cs).all Char.isDigit then some ((digitsToNat (c :: cs) 0 : Int))
      else none

/-- Python str.split on the slash separator: all parts, empty parts kept. -/
def splitSlash : List Char → List (List Char)
  | [] => [[]]
  | c :: cs =>
    if c = '/' then [] :: splitSlash cs
    else
      match splitSlash cs with
      | [] => [[c]]
      | p :: ps => (c :: p) :: ps

/-- The normalized record parse_health_mana returns; a field is none when
the corresponding value is Python None. -/
structure HMRecord where
  current : Option Int
  max : Option Int
  percent : Option Int
deriving Repr, DecidableEq

/-- The all-absent record returned on any parse failure. -/
def hm_none : HMRecord := ⟨none, none, none⟩

/-- Embedding of parse_health_mana: a slash selects the current/max branch
(exactly two parts must result, both integers, and the percent guard
max_val > 0 yields 0 otherwise); else a percent sign selects the
percent branch after deleting every percent sign; else a pure digit string
is a bare current value; any exception or fall-through yields the all-absent
record. -/
def parse_health_mana (value : List Char) : HMRecord :=
  if value.contains '/' then
    match splitSlash value with
    | [s, t] =>
      match pyInt s, pyInt t with
      | some cur, some maxv =>
        ⟨some cur, some maxv,
         some (if 0 < maxv then pyPercentInt cur maxv.toNat else 0)⟩
      | _, _ => hm_none
    | _ => hm_none
  else if value.contains '%' then
    match pyInt (value.filter (fun c => c != '%')) with
    | some p => ⟨some p, some 100, some p⟩
    | none => hm_none
  else if value ≠ [] ∧ value.all Char.isDigit then
    match pyInt value with
    | some n => ⟨some n, none, none⟩
    | none => hm_none
  else hm_none

-- THEOREMS-MARKER (definitions above, theorems below)

/-! ## Theorems -/

/-- Auxiliary: the boolean substring test agrees with list-infix. -/
theorem containsSub_correct (hay needle : List Char) :
    containsSub hay needle = true ↔ needle <:+: hay := by
  constructor
  · intro h
    rcases List.any_eq_true.mp h with ⟨t, ht, hp⟩
    exact List.infix_iff_prefix_suffix.mpr
      ⟨t, List.isPrefixOf_iff_prefix.mp hp, (List.mem_tails _ _).mp ht⟩
  · intro h
    rcases List.infix_iff_prefix_suffix.mp h with ⟨t, hp, hs⟩
    exact List.any_eq_true.mpr
      ⟨t, (List.mem_tails _ _).mpr hs, List.isPrefixOf_iff_prefix.mpr hp⟩

/-- Auxiliary: the per-skill match test, phrased through list-infix. -/
theorem matchSkill_eq_decide (desc query : String) :
    matchSkill desc query =
      decide (∀ t ∈ (splitWs desc.data).take 3, t <:+: query.data) := by
  unfold matchSkill
  rcases h : decide (∀ t ∈ (splitWs desc.data).take 3, t <:+: query.data) with _ | _
  · have h' := of_decide_eq_false h
    rcases not_forall.mp h' with ⟨t, ht⟩
    rcases Classical.not_imp.mp ht with ⟨htm, hti⟩
    refine List.all_eq_false.mpr ⟨t, htm, ?_⟩
    simp only [Bool.not_eq_true]
    exact (Bool.not_eq_true _).mp (fun hc => hti (containsSub_correct _ _ |>.mp hc))
  · have h' := of_decide_eq_true h
    exact List.all_eq_true.mpr fun t ht => (containsSub_correct _ _).mpr (h' t ht)

/-- Claim C8: find_skill returns the first stored snippet whose stored
description has all of its first three whitespace-delimited tokens occurring
verbatim (as substrings) in the query, and none otherwise; in particular,
after add_skill "kill nearby wolf" CODE_A, a query "kill nearby wolf with
sword" retrieves CODE_A and "loot chest" retrieves nothing. -/
theorem find_skill_spec :
    (∀ (lib : SkillLib) (q : String),
      find_skill lib q =
        (lib.find? (fun p : String × String =>
          decide (∀ t ∈ (splitWs p.1.data).take 3, t <:+: q.data))).map Prod.snd) ∧
    find_skill (add_skill [] "kill nearby wolf" "CODE_A")
      "kill nearby wolf with sword" = some "CODE_A" ∧
    find_skill (add_skill [] "kill nearby wolf" "CODE_A") "loot chest" = none := by
  refine ⟨?_, by decide, by decide⟩
  intro lib q
  induction lib with
  | nil => rfl
  | cons p rest ih =>
    rcases p with ⟨k, v⟩
    simp only [find_skill, List.find?]
    rw [← matchSkill_eq_decide]
    rcases h : matchSkill k q with _ | _
    · simpa [h] using ih
    · simp [h]

/-- Claim C4: the rule-based fallback planner emits exactly one revive step
when health is zero; otherwise a move-then-attack pair aimed at one and the
same element of a non-empty enemy list; otherwise a single move toward the
first NPC when one exists; otherwise a single explore step. -/
theorem generate_plan_spec (pick : Nat) (state : PlanState) :
    (state.health = 0 → generate_plan pick state = [PlanStep.revive]) ∧
    (state.health ≠ 0 → state.enemies ≠ [] →
      ∃ e ∈ state.enemies,
        generate_plan pick state = [PlanStep.move_to e, PlanStep.attack e]) ∧
    (state.health ≠ 0 → state.enemies = [] → ∀ n ns, state.npcs = n :: ns →
      generate_plan pick state = [PlanStep.move_to n]) ∧
    (state.health ≠ 0 → state.enemies = [] → state.npcs = [] →
      generate_plan pick state = [PlanStep.explore]) := by
  refine ⟨?_, ?_, ?_, ?_⟩
  · intro h; simp [generate_plan, h]
  · intro h he
    refine ⟨state.enemies.getD (pick % state.enemies.length) (0, 0), ?_, ?_⟩
    · have hlt : pick % state.enemies.length < state.enemies.length :=
        Nat.mod_lt _ (List.length_pos.mpr he)
      rw [List.getD_eq_getElem _ _ hlt]
      exact state.enemies.getElem_mem hlt
    · simp [generate_plan, h, he]
  · intro h he n ns hn
    simp [generate_plan, h, he, hn]
  · intro h he hn
    simp [generate_plan, h, he, hn]

/-- Witness for generate_plan_spec: at health 1, one enemy at (5, 5), no
NPCs, the plan is the move-attack pair aimed at that enemy. -/
theorem generate_plan_spec_witness :
    ∃ e ∈ [((5 : Int), (5 : Int))],
      generate_plan 0 ⟨1, [(5, 5)], []⟩ = [PlanStep.move_to e, PlanStep.attack e] :=
  (generate_plan_spec 0 ⟨1, [(5, 5)], []⟩).2.1 (by decide) (by decide)

/-- Claim C2 (counterexample): an LLM outcome parsing to a valid record that
carries no status key is returned by plan_action unchanged, so the record
returned on the success path does not satisfy status = success; the claimed
return shape with a status field set to success is refuted. -/
theorem plan_action_success_lacks_status :
    (plan_action ⟨none, []⟩ ⟨none, none, [], []⟩ none none none 0
        (fun _ => Except.ok
          ⟨some "move", some ⟨some "enemy", some (1, 2)⟩, some "ok", none⟩)).1 =
      ⟨some "move", some ⟨some "enemy", some (1, 2)⟩, some "ok", none⟩ ∧
    (⟨some "move", some ⟨some "enemy", some (1, 2)⟩, some "ok",
        none⟩ : ParsedResp).status ≠ some "success" := by
  exact ⟨rfl, by decide⟩

/-- Claim C2 (amended): plan_action never raises across its boundary: when
the LLM layer (invocation or parsing) fails it returns the error record with
status error, action absent and a reason message, leaving the planner state
unchanged; when the parsed response passes validation it appends a history
entry and returns the parsed record itself (no status field is added); when
validation fails it returns the error record and leaves the state unchanged. -/
theorem plan_action_boundary (p : PlannerState) (gs : GameStateIn)
    (history inventory abilities : Option (List String)) (now : Nat)
    (llm : Prompt → Except String ParsedResp) :
    (∀ e, llm (generate_prompt (prepare_context p gs history inventory abilities now)) =
        Except.error e →
      plan_action p gs history inventory abilities now llm = (plan_error_record e, p) ∧
      (plan_error_record e).status = some "error" ∧
      (plan_error_record e).action = none ∧
      (plan_error_record e).reason = some ("Ошибка планирования: " ++ e)) ∧
    (∀ r, llm (generate_prompt (prepare_context p gs history inventory abilities now)) =
        Except.ok r →
      validate_action r = Except.ok () →
      plan_action p gs history inventory abilities now llm =
        (r, { last_action := some r
              action_history := p.action_history ++
                [⟨now, r, prepare_context p gs history inventory abilities now⟩] })) ∧
    (∀ r e, llm (generate_prompt (prepare_context p gs history inventory abilities now)) =
        Except.ok r →
      validate_action r = Except.error e →
      plan_action p gs history inventory abilities now llm = (plan_error_record e, p)) := by
  refine ⟨?_, ?_, ?_⟩
  · intro e he
    refine ⟨?_, rfl, rfl, rfl⟩
    simp only [plan_action, he]
  · intro r hr hv
    simp only [plan_action]
    rw [hr]
    simp only [hv, log_action]
    rfl
  · intro r e hr hv
    simp only [plan_action, hr, hv]

/-- Witness for plan_action_boundary: a concrete valid move response is
returned unchanged and appended to the history. -/
theorem plan_action_boundary_witness :
    plan_action ⟨none, []⟩ ⟨none, none, [], []⟩ none none none 0
        (fun _ => Except.ok
          ⟨some "move", some ⟨some "enemy", some (1, 2)⟩, some "ok", none⟩) =
      (⟨some "move", some ⟨some "enemy", some (1, 2)⟩, some "ok", none⟩,
       { last_action := some ⟨some "move", some ⟨some "enemy", some (1, 2)⟩, some "ok", none⟩
         action_history :=
           [⟨0, ⟨some "move", some ⟨some "enemy", some (1, 2)⟩, some "ok", none⟩,
             prepare_context ⟨none, []⟩ ⟨none, none, [], []⟩ none none none 0⟩] }) :=
  (plan_action_boundary ⟨none, []⟩ ⟨none, none, [], []⟩ none none none 0
      (fun _ => Except.ok
        ⟨some "move", some ⟨some "enemy", some (1, 2)⟩, some "ok", none⟩)).2.1
    ⟨some "move", some ⟨some "enemy", some (1, 2)⟩, some "ok", none⟩ rfl rfl

/-- Claim C3 (counterexample): the value explore lies in the claimed
vocabulary yet is rejected by _validate_action, and the value loot lies
outside the claimed vocabulary yet is accepted, so validation does not accept
exactly the claimed six-action vocabulary. -/
theorem validate_action_vocabulary_cex :
    validate_action ⟨some "explore", some ⟨none, none⟩, some "r", none⟩ =
      Except.error "Недопустимое действие: explore" ∧
    validate_action ⟨some "loot", some ⟨none, none⟩, some "r", none⟩ = Except.ok () := by
  exact ⟨rfl, rfl⟩

/-- Claim C3 (amended): for a well-formed parsed response with action, target
and reason present, validation passes exactly when the action value is one of
attack, move, interact, loot; any other value (such as fly, and also explore,
gather_resources, revive) makes plan_action return a record with status error
without raising and without touching the planner state, never a silent no-op. -/
theorem validate_action_spec :
    (∀ (act rsn : String) (tv : TargetVal) (st : Option String),
      validate_action ⟨some act, some tv, some rsn, st⟩ = Except.ok () ↔
        act ∈ ["attack", "move", "interact", "loot"]) ∧
    (∀ (p : PlannerState) (gs : GameStateIn)
        (history inventory abilities : Option (List String)) (now : Nat)
        (llm : Prompt → Except String ParsedResp) (act rsn : String)
        (tv : TargetVal) (st : Option String),
      act ∉ ["attack", "move", "interact", "loot"] →
      llm (generate_prompt (prepare_context p gs history inventory abilities now)) =
        Except.ok ⟨some act, some tv, some rsn, st⟩ →
      (plan_action p gs history inventory abilities now llm).1.status = some "error" ∧
      (plan_action p gs history inventory abilities now llm).2 = p) := by
  have hc : ∀ act : String, allowed_planner_actions.contains act = true ↔
      act ∈ ["attack", "move", "interact", "loot"] := by
    intro act
    have hdef : allowed_planner_actions.contains act =
        List.elem act ["attack", "move", "interact", "loot"] := rfl
    rw [hdef]
    exact List.elem_iff
  constructor
  · intro act rsn tv st
    have hval : validate_action ⟨some act, some tv, some rsn, st⟩ =
        if allowed_planner_actions.contains act then Except.ok ()
        else Except.error ("Недопустимое действие: " ++ act) := rfl
    rw [hval]
    by_cases hm : act ∈ ["attack", "move", "interact", "loot"]
    · rw [if_pos ((hc act).mpr hm)]
      exact iff_of_true rfl hm
    · rw [if_neg (fun hcc => hm ((hc act).mp hcc))]
      exact iff_of_false (by intro he; cases he) hm
  · intro p gs history inventory abilities now llm act rsn tv st hact hllm
    have hv : validate_action ⟨some act, some tv, some rsn, st⟩ =
        Except.error ("Недопустимое действие: " ++ act) := by
      have hval : validate_action ⟨some act, some tv, some rsn, st⟩ =
          if allowed_planner_actions.contains act then Except.ok ()
          else Except.error ("Недопустимое действие: " ++ act) := rfl
      rw [hval, if_neg (fun hcc => hact ((hc act).mp hcc))]
    simp only [plan_action, hllm, hv]
    refine ⟨?_, ?_⟩ <;> trivial

/-- Claim C1 (counterexample): the environment-package facade variant, with
all internals succeeding, returns a success record that carries no frame
field; and the root facade, when an internal call raises with an empty
message, returns an error record whose reason is the empty string, so the
claimed invariant (success implies frame present; error implies a non-empty
reason) fails as stated over the cited facade variants. -/
theorem get_game_state_invariant_cex :
    (env_get_game_state
        ⟨Except.ok 7, fun _ => Except.ok 50, Except.ok (1, 2)⟩).status = "success" ∧
    (env_get_game_state
        ⟨Except.ok 7, fun _ => Except.ok 50, Except.ok (1, 2)⟩).frame = none ∧
    root_get_game_state
        ⟨some 7, fun _ => Except.error "", fun _ => Except.ok (0, 0)⟩ =
      gs_error_record "" ∧
    (gs_error_record "").reason = some "" := by
  exact ⟨rfl, rfl, rfl, rfl⟩

/-- Claim C1 (amended): for every behavior of the internals, neither facade
raises past get_game_state, and the status of the returned record is always
success or error.  In the root facade, success implies the frame field is
present and reason absent, and error implies reason present, the reason
being the fixed non-empty capture-failure message or the raised message
(hence non-empty whenever that message is).  The environment-package variant
satisfies the same status/reason discipline but never carries a frame field,
on success or otherwise. -/
theorem get_game_state_fault_isolation :
    (∀ i : RootFacadeInternals,
      ((root_get_game_state i).status = "success" →
        (root_get_game_state i).frame.isSome ∧ (root_get_game_state i).reason = none) ∧
      ((root_get_game_state i).status = "error" → (root_get_game_state i).reason.isSome) ∧
      ((root_get_game_state i).status = "success" ∨
        (root_get_game_state i).status = "error") ∧
      (i.capture_frame = none →
        root_get_game_state i = gs_error_record "Не удалось захватить кадр")) ∧
    (∀ j : EnvFacadeInternals,
      (env_get_game_state j).frame = none ∧
      ((env_get_game_state j).status = "error" → (env_get_game_state j).reason.isSome) ∧
      ((env_get_game_state j).status = "success" ∨
        (env_get_game_state j).status = "error")) := by
  constructor
  · intro i
    rcases hc : i.capture_frame with _ | f
    · refine ⟨?_, ?_, ?_, ?_⟩ <;>
        simp [root_get_game_state, root_get_game_state_body, hc, gs_error_record]
    · rcases he : i.find_objects f with e | es
      · refine ⟨?_, ?_, ?_, ?_⟩ <;>
          simp [root_get_game_state, root_get_game_state_body, hc, he, gs_error_record]
      · rcases hp : i.player_position f with e | pos <;>
          refine ⟨?_, ?_, ?_, ?_⟩ <;>
            simp [root_get_game_state, root_get_game_state_body, hc, he, hp, gs_error_record]
  · intro j
    rcases hs : j.get_screenshot with e | shot
    · refine ⟨?_, ?_, ?_⟩ <;>
        simp [env_get_game_state, env_get_game_state_body, hs, gs_error_record]
    · rcases hh : j.detect_health shot with e | health
      · refine ⟨?_, ?_, ?_⟩ <;>
          simp [env_get_game_state, env_get_game_state_body, hs, hh, gs_error_record]
      · rcases hp : j.mouse_position with e | pos <;>
          refine ⟨?_, ?_, ?_⟩ <;>
            simp [env_get_game_state, env_get_game_state_body, hs, hh, hp, gs_error_record]

/-- Witness for get_game_state_fault_isolation: with all internals
succeeding, the root facade reports success with the frame present and no
reason; with a failed capture, the fixed error record. -/
theorem get_game_state_fault_isolation_witness :
    (root_get_game_state
        ⟨some 7, fun _ => Except.ok [(3, 4)], fun _ => Except.ok (1, 2)⟩).frame.isSome ∧
    (root_get_game_state
        ⟨some 7, fun _ => Except.ok [(3, 4)], fun _ => Except.ok (1, 2)⟩).reason = none ∧
    root_get_game_state ⟨none, fun _ => Except.ok [], fun _ => Except.ok (0, 0)⟩ =
      gs_error_record "Не удалось захватить кадр" :=
  ⟨((get_game_state_fault_isolation.1
      ⟨some 7, fun _ => Except.ok [(3, 4)], fun _ => Except.ok (1, 2)⟩).1 rfl).1,
   ((get_game_state_fault_isolation.1
      ⟨some 7, fun _ => Except.ok [(3, 4)], fun _ => Except.ok (1, 2)⟩).1 rfl).2,
   (get_game_state_fault_isolation.1
      ⟨none, fun _ => Except.ok [], fun _ => Except.ok (0, 0)⟩).2.2.2 rfl⟩

/-- Claim C9 (counterexample): the controllers-variant execute re-raises on
an action type with no registered handler, with trivially succeeding
handlers and the concrete unhandled type fly, so the claimed
log-and-return-normally behavior does not hold for every movement-controller
variant. -/
theorem ctrl_execute_unhandled_raises :
    ctrl_execute
        ⟨fun _ => Except.ok (), fun _ => Except.ok (),
         fun _ => Except.ok (), fun _ => Except.ok ()⟩
        (CtrlActionInput.plain ⟨some "fly", none⟩) =
      Except.error "Нет обработчика для действия: fly" := by
  rfl

/-- Claim C9 (amended): the agents-variant execute never lets an exception
reach its caller for any action and any handler behavior, and for an
unrecognized action type its body succeeds without invoking any handler; the
controllers-variant execute instead propagates an error for every type
outside its handler table (explore, gather_resources, move, attack). -/
theorem movement_execute_spec :
    (∀ (h : AgentsHandlers) (a : ActionDict), agents_execute h a = Except.ok ()) ∧
    (∀ (h : AgentsHandlers) (a : ActionDict) (t : String), a.action = some t →
      t ∉ ["move", "attack", "interact"] → agents_execute_body h a = Except.ok ()) ∧
    (∀ (h : CtrlHandlers) (a : ActionDict) (t : String), a.action = some t →
      t ≠ "" → t ∉ ["explore", "gather_resources", "move", "attack"] →
      ctrl_execute h (CtrlActionInput.plain a) =
        Except.error ("Нет обработчика для действия: " ++ t) ∧
      ctrl_execute h (CtrlActionInput.wrapped a) =
        Except.error ("Нет обработчика для действия: " ++ t)) := by
  refine ⟨?_, ?_, ?_⟩
  · intro h a
    unfold agents_execute
    rcases agents_execute_body h a with e | u
    · rfl
    · rfl
  · intro h a t ha ht
    have h1 : t ≠ "move" := by intro hh; exact ht (by rw [hh]; simp)
    have h2 : t ≠ "attack" := by intro hh; exact ht (by rw [hh]; simp)
    have h3 : t ≠ "interact" := by intro hh; exact ht (by rw [hh]; simp)
    unfold agents_execute_body
    rw [ha]
    simp only [if_neg h1, if_neg h2, if_neg h3]
  · intro h a t ha ht hmem
    have h1 : t ≠ "explore" := by intro hh; exact hmem (by rw [hh]; simp)
    have h2 : t ≠ "gather_resources" := by intro hh; exact hmem (by rw [hh]; simp)
    have h3 : t ≠ "move" := by intro hh; exact hmem (by rw [hh]; simp)
    have h4 : t ≠ "attack" := by intro hh; exact hmem (by rw [hh]; simp)
    constructor <;>
      · unfold ctrl_execute
        simp only [ha, if_neg ht, if_neg h1, if_neg h2, if_neg h3, if_neg h4]

/-- Witness for movement_execute_spec: the concrete unknown type dance is
swallowed by the agents variant and rejected by the controllers variant. -/
theorem movement_execute_spec_witness :
    agents_execute_body
        ⟨fun _ => Except.ok (), fun _ _ => Except.ok (), fun _ => Except.ok ()⟩
        ⟨some "dance", none⟩ = Except.ok () ∧
    ctrl_execute
        ⟨fun _ => Except.ok (), fun _ => Except.ok (),
         fun _ => Except.ok (), fun _ => Except.ok ()⟩
        (CtrlActionInput.wrapped ⟨some "dance", none⟩) =
      Except.error "Нет обработчика для действия: dance" :=
  ⟨movement_execute_spec.2.1
      ⟨fun _ => Except.ok (), fun _ _ => Except.ok (), fun _ => Except.ok ()⟩
      ⟨some "dance", none⟩ "dance" rfl (by decide),
   (movement_execute_spec.2.2
      ⟨fun _ => Except.ok (), fun _ => Except.ok (),
       fun _ => Except.ok (), fun _ => Except.ok ()⟩
      ⟨some "dance", none⟩ "dance" rfl (by decide) (by decide)).2⟩
theorem validate_action_spec_witness :
    validate_action ⟨some "attack", some ⟨none, none⟩, some "x", none⟩ = Except.ok () ∧
    (plan_action ⟨none, []⟩ ⟨none, none, [], []⟩ none none none 0
        (fun _ => Except.ok
          ⟨some "fly", some ⟨some "enemy", some (10, 20)⟩, some "x", none⟩)).1.status =
      some "error" :=
  ⟨(validate_action_spec.1 "attack" "x" ⟨none, none⟩ none).mpr (by decide),
   (validate_action_spec.2 ⟨none, []⟩ ⟨none, none, [], []⟩ none none none 0
      (fun _ => Except.ok
        ⟨some "fly", some ⟨some "enemy", some (10, 20)⟩, some "x", none⟩)
      "fly" "x" ⟨some "enemy", some (10, 20)⟩ none (by decide) rfl).1⟩

/-- Claim C7: get_iam_token serves the cached token with no network
exchange while it is valid; two consecutive calls inside the validity
window perform exactly one exchange in total; and an absent or expired token
triggers one exchange whose token and expiry (server value, or the fallback
of 11 h 55 min past now when the server omits it) are cached. -/
theorem get_iam_token_caching :
    (∀ (st : TokenState) (now : Nat) (resp : ExchangeResponse) (t : String) (e : Nat),
      st.iam_token = some t → t ≠ "" → st.expires_at = some e → now < e →
      get_iam_token st now resp = (Except.ok t, st, 0)) ∧
    (∀ (st : TokenState) (now : Nat) (resp : ExchangeResponse) (t : String),
      (st.iam_token = none ∨ st.iam_token = some "" ∨ st.expires_at = none ∨
        (∃ e, st.expires_at = some e ∧ ¬ now < e)) →
      resp.ok = true → resp.iamToken = some t →
      get_iam_token st now resp =
        (Except.ok t,
         ⟨some t, some (resp.expiresAt.getD (now + fallback_lifetime))⟩, 1)) ∧
    (∀ (st : TokenState) (now1 now2 : Nat) (resp1 resp2 : ExchangeResponse)
        (t : String) (st1 : TokenState) (n1 : Nat) (e : Nat),
      get_iam_token st now1 resp1 = (Except.ok t, st1, n1) →
      t ≠ "" → st1.expires_at = some e → now2 < e →
      get_iam_token st1 now2 resp2 = (Except.ok t, st1, 0) ∧ n1 ≤ 1) := by
  have hexch : ∀ (st : TokenState) (now : Nat) (resp : ExchangeResponse) (t : String),
      resp.ok = true → resp.iamToken = some t →
      token_exchange st now resp =
        (Except.ok t,
         ⟨some t, some (resp.expiresAt.getD (now + fallback_lifetime))⟩, 1) := by
    intro st now resp t hok htok
    unfold token_exchange
    rw [hok, htok]
    rcases he : resp.expiresAt with _ | e <;> simp [Option.getD]
  have hexch_inv : ∀ (st : TokenState) (now : Nat) (resp : ExchangeResponse)
      (t : String) (st1 : TokenState) (n1 : Nat),
      token_exchange st now resp = (Except.ok t, st1, n1) →
      st1.iam_token = some t ∧ n1 ≤ 1 := by
    intro st now resp t st1 n1 h
    unfold token_exchange at h
    by_cases hok : resp.ok = false
    · rw [if_pos hok] at h
      have := congrArg Prod.fst h
      simp at this
    · rw [if_neg hok] at h
      rcases htok : resp.iamToken with _ | t0 <;> rw [htok] at h
      · have := congrArg Prod.fst h
        simp at this
      · have h1 := congrArg Prod.fst h
        have h2 := congrArg (fun x => x.2.1.iam_token) h
        have h3 := congrArg (fun x => x.2.2) h
        simp at h1 h2 h3
        refine ⟨?_, by omega⟩
        rw [← h2, h1]
  have hcached : ∀ (st : TokenState) (now : Nat) (resp : ExchangeResponse)
      (t : String) (e : Nat),
      st.iam_token = some t → t ≠ "" → st.expires_at = some e → now < e →
      get_iam_token st now resp = (Except.ok t, st, 0) := by
    intro st now resp t e ht hne he hlt
    unfold get_iam_token
    simp only [ht, he]
    rw [if_pos ⟨hne, hlt⟩]
  refine ⟨hcached, ?_, ?_⟩
  · intro st now resp t hinv hok htok
    have hfall : get_iam_token st now resp = token_exchange st now resp := by
      unfold get_iam_token
      rcases hti : st.iam_token with _ | t0
      · simp only [hti]
      · rcases hte : st.expires_at with _ | e0
        · simp only [hti, hte]
        · simp only [hti, hte]
          rcases hinv with h | h | h | ⟨e1, he1, hlt⟩
          · rw [hti] at h; cases h
          · rw [hti] at h
            have ht0 : t0 = "" := by cases h; rfl
            rw [if_neg (fun hc => hc.1 ht0)]
          · rw [hte] at h; cases h
          · rw [hte] at he1
            have he0 : e0 = e1 := by cases he1; rfl
            rw [if_neg (fun hc => hlt (he0 ▸ hc.2))]
    rw [hfall]
    exact hexch st now resp t hok htok
  · intro st now1 now2 resp1 resp2 t st1 n1 e h1 hne he1 hlt
    have hst1 : st1.iam_token = some t ∧ n1 ≤ 1 := by
      unfold get_iam_token at h1
      rcases hti : st.iam_token with _ | t0 <;> simp only [hti] at h1
      · exact hexch_inv st now1 resp1 t st1 n1 h1
      · rcases hte : st.expires_at with _ | e0 <;> simp only [hte] at h1
        · exact hexch_inv st now1 resp1 t st1 n1 h1
        · by_cases hc : t0 ≠ "" ∧ now1 < e0
          · rw [if_pos hc] at h1
            have h1a := congrArg (fun x => x.2.1) h1
            have h1b := congrArg Prod.fst h1
            have h1c := congrArg (fun x => x.2.2) h1
            simp at h1a h1b h1c
            refine ⟨?_, by omega⟩
            rw [← h1a, hti, h1b]
          · rw [if_neg hc] at h1
            exact hexch_inv st now1 resp1 t st1 n1 h1
    exact ⟨hcached st1 now2 resp2 t e hst1.1 hne he1 hlt, hst1.2⟩

/-- Witness for get_iam_token_caching: after one exchange caching token and
expiry 100, a second call at time 50 returns the cached token with zero
exchanges, even against an erroring endpoint. -/
theorem get_iam_token_caching_witness :
    get_iam_token ⟨some "tok", some 100⟩ 50 ⟨false, none, none⟩ =
      (Except.ok "tok", ⟨some "tok", some 100⟩, 0) ∧ 1 ≤ 1 :=
  get_iam_token_caching.2.2 ⟨none, none⟩ 0 50 ⟨true, some "tok", some 100⟩
    ⟨false, none, none⟩ "tok" ⟨some "tok", some 100⟩ 1 100 rfl (by decide) rfl
    (by decide)

/-- Claim C10: the module agents.llm_provider binds no name LLMProvider, so
the from-import in the ActionPlanner constructor fails and is re-raised;
with any argument count the construction errors (a non-zero count is already
a TypeError against the zero-parameter constructor, and main.py passes one
argument); hence the orchestrator component initialization errors for every
behavior of the provider construction and the loop is never reached. -/
theorem action_planner_unconstructible :
    llm_provider_module_names.contains "LLMProvider" = false ∧
    action_planner_init =
      Except.error "ImportError: cannot import name LLMProvider" ∧
    (∀ args : Nat, ∃ e, call_action_planner args = Except.error e) ∧
    (∀ provider : Except String Unit, ∃ e,
      wow_bot_init_components provider = Except.error e) := by
  refine ⟨by decide, rfl, ?_, ?_⟩
  · intro args
    by_cases h : args = 0
    · subst h
      exact ⟨"ImportError: cannot import name LLMProvider", rfl⟩
    · refine ⟨"TypeError: ActionPlanner takes no positional arguments", ?_⟩
      unfold call_action_planner
      rw [if_pos ?_]
      exact fun hc => h hc
  · intro provider
    rcases provider with e | u
    · exact ⟨e, rfl⟩
    · exact ⟨"TypeError: ActionPlanner takes no positional arguments", rfl⟩

/-- Auxiliary: boolean list containment on strings agrees with membership. -/
theorem string_contains_iff (l : List String) (a : String) :
    l.contains a = true ↔ a ∈ l :=
  List.elem_iff

/-- Auxiliary: check_node succeeds exactly when every call-target name in
the tree lies in the allow-list of the source. -/
theorem check_node_iff (t : PyAst) :
    check_node t = true ↔ ∀ n ∈ call_names t, n ∈ allowed_functions := by
  induction t with
  | name id => simp [check_node, call_names]
  | attr base f ih => simpa [check_node, call_names] using ih
  | call f args ihf iha =>
    constructor
    · intro h
      simp only [check_node, Bool.and_eq_true] at h
      obtain ⟨⟨hcont, hf⟩, hargs⟩ := h
      intro n hn
      simp only [call_names, List.mem_cons, List.mem_append] at hn
      rcases hn with rfl | hn | hn
      · exact (string_contains_iff _ _).mp hcont
      · exact (ihf.mp hf) n hn
      · exact (iha.mp hargs) n hn
    · intro h
      simp only [check_node, Bool.and_eq_true]
      refine ⟨⟨?_, ?_⟩, ?_⟩
      · exact (string_contains_iff _ _).mpr (h _ (by simp [call_names]))
      · exact ihf.mpr (fun n hn => h n (by simp [call_names, hn]))
      · exact iha.mpr (fun n hn => h n (by simp [call_names, hn]))
  | const => simp [check_node, call_names]
  | seqNil => simp [check_node, call_names]
  | seqCons h tl ihh iht =>
    simp only [check_node, call_names, Bool.and_eq_true, List.forall_mem_append,
      ihh, iht]

/-- Claim C6 (counterexample): move is in the allow-list as the claim words
it, yet a snippet consisting of the single call move(1, 2) is rejected by
validate_code (the empty string is returned instead of the snippet). -/
theorem validate_code_allowlist_cex :
    "move" ∈ claimed_allowed_functions ∧
    validate_code "move(1, 2)"
        (some (PyAst.seqCons
          (PyAst.call (PyAst.name "move")
            (PyAst.seqCons PyAst.const (PyAst.seqCons PyAst.const PyAst.seqNil)))
          PyAst.seqNil)) = "" ∧
    "move(1, 2)" ≠ "" := by
  exact ⟨by decide, rfl, by decide⟩

/-- Claim C6 (amended): for a non-blank snippet that parses, validate_code
returns the snippet for execution exactly when every call expression in it
targets a name (a simple name's id, or the attribute name of an attribute
access, the empty name otherwise) drawn from the allow-list move_to, click,
cast_spell, loot of this validator; a snippet that fails to parse, or is
blank, is rejected with the empty string, and every rejection returns the
empty string. -/
theorem validate_code_spec :
    (∀ (text : String) (tree : PyAst), pyStrip text.data ≠ [] →
      (validate_code text (some tree) = text ↔
        ∀ n ∈ call_names tree, n ∈ ["move_to", "click", "cast_spell", "loot"])) ∧
    (∀ text : String, validate_code text none = "") ∧
    (∀ (text : String) (o : Option PyAst), pyStrip text.data = [] →
      validate_code text o = "") ∧
    (∀ (text : String) (o : Option PyAst),
      validate_code text o = text ∨ validate_code text o = "") := by
  have hred : ∀ (text : String) (tree : PyAst), pyStrip text.data ≠ [] →
      validate_code text (some tree) = if check_node tree then text else "" := by
    intro text tree htext
    unfold validate_code
    rw [if_neg htext]
  refine ⟨?_, ?_, ?_, ?_⟩
  · intro text tree htext
    have htne : text ≠ "" := fun h => htext (by rw [h]; rfl)
    rw [hred text tree htext]
    constructor
    · intro hv
      rcases hck : check_node tree with _ | _
      · rw [hck] at hv
        simp at hv
        exact absurd hv.symm htne
      · simpa [allowed_functions] using (check_node_iff tree).mp hck
    · intro hall
      have hck : check_node tree = true :=
        (check_node_iff tree).mpr (by simpa [allowed_functions] using hall)
      simp [hck]
  · intro text
    unfold validate_code
    by_cases h : pyStrip text.data = []
    · rw [if_pos h]
    · rw [if_neg h]
  · intro text o h
    unfold validate_code
    rw [if_pos h]
  · intro text o
    by_cases h : pyStrip text.data = []
    · right
      unfold validate_code
      rw [if_pos h]
    · rcases o with _ | tree
      · right
        unfold validate_code
        rw [if_neg h]
      · rw [hred text tree h]
        rcases hck : check_node tree with _ | _
        · right; simp
        · left; simp

/-- Witness for validate_code_spec: a snippet calling only move_to, click,
cast_spell and loot is accepted verbatim. -/
theorem validate_code_spec_witness :
    validate_code "move_to(0.5, 0.5); click(); cast_spell(); loot()"
        (some (PyAst.seqCons
          (PyAst.call (PyAst.name "move_to")
            (PyAst.seqCons PyAst.const (PyAst.seqCons PyAst.const PyAst.seqNil)))
          (PyAst.seqCons (PyAst.call (PyAst.name "click") PyAst.seqNil)
            (PyAst.seqCons
              (PyAst.call (PyAst.name "cast_spell")
                (PyAst.seqCons PyAst.const PyAst.seqNil))
              (PyAst.seqCons (PyAst.call (PyAst.name "loot") PyAst.seqNil)
                PyAst.seqNil))))) =
      "move_to(0.5, 0.5); click(); cast_spell(); loot()" :=
  (validate_code_spec.1 "move_to(0.5, 0.5); click(); cast_spell(); loot()"
      (PyAst.seqCons
        (PyAst.call (PyAst.name "move_to")
          (PyAst.seqCons PyAst.const (PyAst.seqCons PyAst.const PyAst.seqNil)))
        (PyAst.seqCons (PyAst.call (PyAst.name "click") PyAst.seqNil)
          (PyAst.seqCons
            (PyAst.call (PyAst.name "cast_spell")
              (PyAst.seqCons PyAst.const PyAst.seqNil))
            (PyAst.seqCons (PyAst.call (PyAst.name "loot") PyAst.seqNil)
              PyAst.seqNil))))
      (by decide)).mpr (by decide)

/-- Auxiliary: boolean containment on character lists agrees with
membership. -/
theorem char_contains_iff (l : List Char) (a : Char) :
    l.contains a = true ↔ a ∈ l :=
  List.elem_iff

/-- Auxiliary: splitting a slash-free string on the slash yields the string
as its only part. -/
theorem splitSlash_no_slash (s : List Char) (h : ('/' : Char) ∉ s) :
    splitSlash s = [s] := by
  induction s with
  | nil => rfl
  | cons c cs ih =>
    have hc : c ≠ '/' := fun hh => h (hh ▸ List.mem_cons_self c cs)
    have hcs : ('/' : Char) ∉ cs := fun hh => h (List.mem_cons_of_mem c hh)
    simp only [splitSlash, if_neg hc, ih hcs]

/-- Auxiliary: splitting a string with one marked slash whose left part is
slash-free peels off that left part. -/
theorem splitSlash_append (s t : List Char) (h : ('/' : Char) ∉ s) :
    splitSlash (s ++ '/' :: t) = s :: splitSlash t := by
  induction s with
  | nil => rfl
  | cons c cs ih =>
    have hc : c ≠ '/' := fun hh => h (hh ▸ List.mem_cons_self c cs)
    have hcs : ('/' : Char) ∉ cs := fun hh => h (List.mem_cons_of_mem c hh)
    rw [List.cons_append]
    simp only [splitSlash, if_neg hc, ih hcs]

/-- Auxiliary: a pure digit string contains neither a slash nor a percent
sign. -/
theorem digits_not_mem (s : List Char) (h : s.all Char.isDigit = true) :
    ('/' : Char) ∉ s ∧ ('%' : Char) ∉ s := by
  have h' := List.all_eq_true.mp h
  constructor <;> intro hm
  · exact absurd (h' _ hm) (by decide)
  · exact absurd (h' _ hm) (by decide)

/-- Auxiliary: deleting percent signs from a percent-free string followed by
one percent sign recovers the string. -/
theorem filter_percent (s : List Char) (h : ('%' : Char) ∉ s) :
    (s ++ ['%']).filter (fun c => c != '%') = s := by
  rw [List.filter_append]
  have h1 : s.filter (fun c => c != '%') = s :=
    List.filter_eq_self.mpr (fun a ha => bne_iff_ne.mpr (fun hh => h (hh ▸ ha)))
  rw [h1]
  simp

/-- Claim C5 (counterexample): parse_health_mana truncates the percent
instead of rounding it (2/3 yields percent 66, not round(200/3) = 67), and
an input outside the three claimed shapes, such as 5%5, does not yield the
all-absent record (every percent sign is deleted, leaving 55). -/
theorem parse_health_mana_cex :
    parse_health_mana ("2/3".data) ≠ ⟨some 2, some 3, some 67⟩ ∧
    parse_health_mana ("2/3".data) = ⟨some 2, some 3, some 66⟩ ∧
    parse_health_mana ("5%5".data) ≠ hm_none ∧
    parse_health_mana ("5%5".data) = ⟨some 55, some 100, some 55⟩ := by
  exact ⟨by decide, by decide, by decide, by decide⟩

/-- Claim C5 (amended): for integer parts a and b > 0, the slash form gives
current a, max b and percent int(100 a / b) computed in double-precision
floating point, which truncates (it agrees with the floor of the exact ratio
except for float rounding, as 29/100 giving 28 shows) and is not round(100
a / b); the percent form gives current p, max 100, percent p; a bare digit
string gives only current; and an input with no slash and no percent sign
that is not a pure digit string gives the all-absent record.  The claimed
concrete examples evaluate as stated. -/
theorem parse_health_mana_spec :
    (∀ (s t : List Char) (a b : Int), pyInt s = some a → pyInt t = some b →
      ('/' : Char) ∉ s → ('/' : Char) ∉ t → 0 < b →
      parse_health_mana (s ++ '/' :: t) =
        ⟨some a, some b, some (pyPercentInt a b.toNat)⟩) ∧
    (∀ (s : List Char) (v : Int), pyInt s = some v →
      ('/' : Char) ∉ s → ('%' : Char) ∉ s →
      parse_health_mana (s ++ ['%']) = ⟨some v, some 100, some v⟩) ∧
    (∀ (s : List Char) (v : Int), s ≠ [] → s.all Char.isDigit = true →
      pyInt s = some v → parse_health_mana s = ⟨some v, none, none⟩) ∧
    (∀ s : List Char, ('/' : Char) ∉ s → ('%' : Char) ∉ s →
      ¬(s ≠ [] ∧ s.all Char.isDigit = true) → parse_health_mana s = hm_none) ∧
    parse_health_mana ("75/150".data) = ⟨some 75, some 150, some 50⟩ ∧
    parse_health_mana ("42%".data) = ⟨some 42, some 100, some 42⟩ ∧
    parse_health_mana ("88".data) = ⟨some 88, none, none⟩ ∧
    parse_health_mana ("garbage".data) = hm_none ∧
    parse_health_mana ("29/100".data) = ⟨some 29, some 100, some 28⟩ := by
  refine ⟨?_, ?_, ?_, ?_, by decide, by decide, by decide, by decide, by decide⟩
  · intro s t a b ha hb hs ht hbpos
    have hmem : ('/' : Char) ∈ s ++ '/' :: t :=
      List.mem_append.mpr (Or.inr (List.mem_cons_self _ _))
    unfold parse_health_mana
    rw [if_pos ((char_contains_iff _ _).mpr hmem)]
    rw [splitSlash_append s t hs, splitSlash_no_slash t ht]
    simp only [ha, hb]
    rw [if_pos hbpos]
  · intro s v hv hs hp
    have hnoslash : ('/' : Char) ∉ s ++ ['%'] := by
      intro hm
      rcases List.mem_append.mp hm with h1 | h1
      · exact hs h1
      · simp at h1
    have hpm : ('%' : Char) ∈ s ++ ['%'] :=
      List.mem_append.mpr (Or.inr (List.mem_cons_self _ _))
    unfold parse_health_mana
    rw [if_neg (fun hc => hnoslash ((char_contains_iff _ _).mp hc))]
    rw [if_pos ((char_contains_iff _ _).mpr hpm)]
    rw [filter_percent s hp]
    simp only [hv]
  · intro s v hne hdig hv
    obtain ⟨hns, hnp⟩ := digits_not_mem s hdig
    unfold parse_health_mana
    rw [if_neg (fun hc => hns ((char_contains_iff _ _).mp hc))]
    rw [if_neg (fun hc => hnp ((char_contains_iff _ _).mp hc))]
    rw [if_pos ⟨hne, hdig⟩]
    simp only [hv]
  · intro s hns hnp hnd
    unfold parse_health_mana
    rw [if_neg (fun hc => hns ((char_contains_iff _ _).mp hc))]
    rw [if_neg (fun hc => hnp ((char_contains_iff _ _).mp hc))]
    rw [if_neg hnd]

/-- Witness for parse_health_mana_spec: the slash clause applied at 75/150,
whose percent is exactly 50. -/
theorem parse_health_mana_spec_witness :
    parse_health_mana ("75".data ++ '/' :: "150".data) =
      ⟨some 75, some 150, some (pyPercentInt 75 (150 : Int).toNat)⟩ ∧
    pyPercentInt 75 (150 : Int).toNat = 50 :=
  ⟨parse_health_mana_spec.1 "75".data "150".data 75 150 (by decide) (by decide)
      (by decide) (by decide) (by decide),
   by decide⟩

end Wow
